import Mathlib

/-!
Shallow embedding of `datafusion/functions/src/datetime/common.rs`:
the string-to-value dispatch kernels (`handle`, `handle_multiple`,
`strings_to_primitive_function`, `handle_array_op`,
`unary_string_to_primitive_function`) and the format-aware temporal
string functions (`string_to_datetime_formatted`,
`string_to_timestamp_nanos_formatted`, `string_to_timestamp_millis_formatted`).

Modelling conventions:
* An Arrow string array is a `List (String × Bool)`: the data value stored
  at each slot together with its validity bit.  Arrow's `value(i)` accessor
  reads the data buffer without consulting the validity bitmap, while
  `iter()` yields `Some`/`None` according to validity; both are modelled
  below (`aux_value_at` reads the data component, `iter_value` respects the
  validity bit).
* The three text encodings `Utf8`, `LargeUtf8`, `Utf8View` are a tag
  (`TextEnc`); the kernels treat them identically, as the source does.
* A non-text operand is `otherArray` / `otherScalar`, carrying the printed
  form of its data type (and, for scalars, of its value) so the error
  messages built from them can be reproduced.
* `DataFusionError` is modelled by its two constructors used here:
  `execution` (from the exec_err macro) and `internal`
  (from the unwrap_or_internal_err macro).
* `Result<T>` is `Except DFError T`.  Rust's indexing panic on `args[0]`
  with an empty slice is modelled by an `Option` around the result of the
  entry points `handle` and `handle_multiple` (`none` = panic).
* The chrono date/time library is an external collaborator; its interface
  is abstracted as a `ChronoOps` structure, and the two epoch conversions
  of `DateTime<Utc>` are modelled on instants represented as integer
  nanoseconds since the epoch.
-/

namespace DFDatetime

/-- The three interchangeable Arrow text encodings accepted by the kernels. -/
inductive TextEnc where
  | utf8
  | largeUtf8
  | utf8View
deriving DecidableEq, Repr

/-- Printed form of the corresponding Arrow DataType (Debug and Display
agree for these variants). -/
def TextEnc.dtName : TextEnc → String
  | .utf8 => "Utf8"
  | .largeUtf8 => "LargeUtf8"
  | .utf8View => "Utf8View"

/-- A `ColumnarValue` operand.  Text arrays carry (data, validity) rows;
text scalars carry an optional value.  Non-text operands carry the printed
form of their data type (`dtName`) and, for scalars, of the scalar value
(`shown`, standing for its Debug/Display rendering). -/
inductive ColumnarValue where
  | array (enc : TextEnc) (rows : List (String × Bool))
  | scalar (enc : TextEnc) (v : Option String)
  | otherArray (dtName : String)
  | otherScalar (dtName : String) (shown : String)
deriving DecidableEq, Repr

/-- The two `DataFusionError` constructors reachable in this file:
`Execution` (built by exec_err) and `Internal`
(built by unwrap_or_internal_err). -/
inductive DFError where
  | execution (msg : String)
  | internal (msg : String)
deriving DecidableEq, Repr

/-- Result shape of the kernel entry points: an output column of optional
native values, or an optional native scalar. -/
inductive KernelOut (α : Type) where
  | array (rows : List (Option α))
  | scalar (v : Option α)
deriving DecidableEq, Repr

/-- A null text scalar operand (`ScalarValue::Utf8(None)` and friends). -/
def is_null_scalar : ColumnarValue → Bool
  | .scalar _ none => true
  | _ => false

/-- Value of row `i` of a text array as yielded by Arrow's `iter()`:
validity-aware. -/
def iter_value (r : String × Bool) : Option String :=
  if r.2 then some r.1 else none

/-- One auxiliary operand consulted at row `pos` inside `handle_array_op`
(the body of the `for arg in args` loop that computes `v`):
`none` models `continue` (a null scalar is skipped);
`some (.ok v)` is a candidate value;
`some (.error e)` is the type error returned through `?`.
An array auxiliary is read with Arrow's `value(pos)`, which returns the
data stored at the slot WITHOUT consulting the validity bitmap, hence the
`.1` projection with no test of the validity bit. -/
def aux_value_at (pos : Nat) : ColumnarValue → Option (Except DFError String)
  | .array _ rows => some (.ok (rows.getD pos ("", false)).1)
  | .otherArray dt =>
      some (.error (.execution ("Unexpected type encountered '" ++ dt ++ "'")))
  | .scalar _ (some s) => some (.ok s)
  | .scalar _ none => none
  | .otherScalar _ shown =>
      some (.error (.execution ("Unexpected scalar type encountered '" ++ shown ++ "'")))

/-- The auxiliary loop of `handle_array_op` for one row with non-null
primary text `x` at position `pos`; `val` is the `let mut val` state
(`none` = no attempt yet, `some (.error e)` = last remembered failure,
`some (.ok r)` = accepted result).  A type error aborts the row through
`?`; a successful `op` breaks with `op2` applied to the result; a failed
`op` is remembered and the loop continues. -/
def fallback_row {α : Type} (op : String → String → Except DFError α)
    (op2 : α → α) (x : String) (pos : Nat) :
    List ColumnarValue → Option (Except DFError α) → Option (Except DFError α)
  | [], val => val
  | arg :: rest, val =>
    match aux_value_at pos arg with
    | none => fallback_row op op2 x pos rest val
    | some (.error e) => some (.error e)
    | some (.ok v) =>
      match op x v with
      | .ok r => some (.ok (op2 r))
      | .error e => fallback_row op op2 x pos rest (some (.error e))

/-- Outcome of one row of `handle_array_op`: a null primary row yields a
null output row with no auxiliary consulted; otherwise the auxiliary loop
runs and `val.transpose()` turns its state into the row result. -/
def row_outcome {α : Type} (op : String → String → Except DFError α)
    (op2 : α → α) (pos : Nat) (args : List ColumnarValue) :
    Option String → Except DFError (Option α)
  | none => .ok none
  | some x =>
    match fallback_row op op2 x pos args none with
    | none => .ok none
    | some (.ok r) => .ok (some r)
    | some (.error e) => .error e

/-- The row-major collection loop of `handle_array_op`
(`first.iter().enumerate().map(..).collect()`): rows are processed left to
right and the first erroring row aborts the whole collection. -/
def handle_array_op_go {α : Type} (op : String → String → Except DFError α)
    (op2 : α → α) (args : List ColumnarValue) :
    List (String × Bool) → Nat → Except DFError (List (Option α))
  | [], _ => .ok []
  | r :: rest, pos =>
    match row_outcome op op2 pos args (iter_value r) with
    | .error e => .error e
    | .ok v =>
      match handle_array_op_go op op2 args rest (pos + 1) with
      | .error e => .error e
      | .ok l => .ok (v :: l)

/-- `handle_array_op(first, args, op, op2)`: row-major fallback execution
over the primary array `first` with auxiliary operands `args`. -/
def handle_array_op {α : Type} (first : List (String × Bool))
    (args : List ColumnarValue) (op : String → String → Except DFError α)
    (op2 : α → α) : Except DFError (List (Option α)) :=
  handle_array_op_go op op2 args first 0

/-- The candidate values actually attempted at row `pos` (null scalars are
skipped, type errors yield nothing to attempt). -/
def attempted_vals (pos : Nat) (args : List ColumnarValue) : List String :=
  args.filterMap (fun a =>
    match aux_value_at pos a with
    | some (.ok v) => some v
    | _ => none)

/-- `unary_string_to_primitive_function(array, op)`:
`array.iter().map(|x| x.map(&op).transpose()).collect()`.  A null row maps
to a null output row; a non-null row maps through `op`; the first failing
row aborts the collection. -/
def unary_string_to_primitive_function {α : Type}
    (rows : List (String × Bool)) (op : String → Except DFError α) :
    Except DFError (List (Option α)) :=
  match rows with
  | [] => .ok []
  | r :: rest =>
    match iter_value r with
    | none =>
      match unary_string_to_primitive_function rest op with
      | .error e => .error e
      | .ok l => .ok (none :: l)
    | some x =>
      match op x with
      | .error e => .error e
      | .ok v =>
        match unary_string_to_primitive_function rest op with
        | .error e => .error e
        | .ok l => .ok (some v :: l)

/-- `handle(args, op, name)`: the unary mapping kernel.  `none` models the
panic of `args[0]` on an empty slice.  The three text encodings all route
to `unary_string_to_primitive_function`; a text scalar is mapped through
`op` (null scalar stays null); non-text operands raise UnsupportedType
errors naming the function. -/
def handle {α : Type} (args : List ColumnarValue)
    (op : String → Except DFError α) (name : String) :
    Option (Except DFError (KernelOut α)) :=
  match args with
  | [] => none
  | arg0 :: _ =>
    some (match arg0 with
    | .array _ rows =>
      match unary_string_to_primitive_function rows op with
      | .error e => .error e
      | .ok l => .ok (.array l)
    | .otherArray dt =>
      .error (.execution ("Unsupported data type " ++ dt ++ " for function " ++ name))
    | .scalar _ none => .ok (.scalar none)
    | .scalar _ (some x) =>
      match op x with
      | .error e => .error e
      | .ok r => .ok (.scalar (some r))
    | .otherScalar _ shown =>
      .error (.execution ("Unsupported data type " ++ shown ++ " for function " ++ name)))

/-- The eager type-validation loop of `handle_multiple`'s array path
(`for (pos, arg) in args.iter().enumerate()`): the first operand that is
not one of the three text encodings aborts with its index, printed type
and the function name. -/
def validate_multi (name : String) : List ColumnarValue → Nat → Except DFError Unit
  | [], _ => .ok ()
  | .array _ _ :: rest, pos => validate_multi name rest (pos + 1)
  | .scalar _ _ :: rest, pos => validate_multi name rest (pos + 1)
  | .otherArray dt :: _, pos =>
    .error (.execution ("Unsupported data type " ++ dt ++ " for function " ++ name
      ++ ", arg # " ++ toString pos))
  | .otherScalar dt _ :: _, pos =>
    .error (.execution ("Unsupported data type " ++ dt ++ " for function " ++ name
      ++ ", arg # " ++ toString pos))

/-- Position and printed type of the first operand that is not one of the
three text encodings, scanning from position `pos`. -/
def first_bad : List ColumnarValue → Nat → Option (Nat × String)
  | [], _ => none
  | .array _ _ :: rest, pos => first_bad rest (pos + 1)
  | .scalar _ _ :: rest, pos => first_bad rest (pos + 1)
  | .otherArray dt :: _, pos => some (pos, dt)
  | .otherScalar dt _ :: _, pos => some (pos, dt)

/-- `strings_to_primitive_function(args, op, op2, name)`: checks the
argument count, then requires `args[0]` to be a text array and runs
`handle_array_op` on it with the remaining operands as auxiliaries.
The non-text-array message hardcodes `substr` and, because of the
backslash line continuation in the source literal, has no space after the
comma. -/
def strings_to_primitive_function {α : Type} (args : List ColumnarValue)
    (op : String → String → Except DFError α) (op2 : α → α) (name : String) :
    Except DFError (List (Option α)) :=
  if args.length < 2 then
    .error (.execution (toString args.length ++ " args were supplied but "
      ++ name ++ " takes 2 or more arguments"))
  else
    match args with
    | [] => .ok []
    | arg0 :: rest =>
      match arg0 with
      | .array _ rows => handle_array_op rows rest op op2
      | .otherArray dt =>
        .error (.execution ("Unsupported data type " ++ dt
          ++ " for function substr,expected Utf8View, Utf8 or LargeUtf8."))
      | .scalar enc _ =>
        .error (.execution ("Received " ++ enc.dtName
          ++ " data type, expected only array"))
      | .otherScalar dt _ =>
        .error (.execution ("Received " ++ dt
          ++ " data type, expected only array"))

/-- A text scalar operand — exactly the shapes matched by the
`let ColumnarValue::Scalar(ScalarValue::Utf8View(x) | LargeUtf8(x) | Utf8(x))
= v else` pattern of `handle_multiple`'s scalar path (null or not). -/
def is_text_scalar : ColumnarValue → Bool
  | .scalar _ _ => true
  | _ => false

/-- Debug rendering of a `ColumnarValue`, as interpolated by the source's
`{v:?}` in the scalar-path type-error message.  `ColumnarValue` derives
Debug, so a scalar prints as `Scalar(<ScalarValue debug>)`: for a
non-text scalar the carried `shown` field IS that inner rendering (e.g.
`Int32(7)`); a text scalar prints its encoding with the quoted value, or
`NULL` (text scalars never reach the error arm, since the `let .. else`
pattern matches them).  An array prints as `Array(<array debug>)`; the
array's Debug renders its full contents, which this model does not carry,
so the inner rendering is abstracted to the data-type name — no claim
depends on an array's rendered contents. -/
def cv_debug : ColumnarValue → String
  | .scalar enc (some s) => "Scalar(" ++ enc.dtName ++ "(\"" ++ s ++ "\"))"
  | .scalar enc none => "Scalar(" ++ enc.dtName ++ "(NULL))"
  | .otherScalar _ shown => "Scalar(" ++ shown ++ ")"
  | .array enc _ => "Array(" ++ enc.dtName ++ ")"
  | .otherArray dt => "Array(" ++ dt ++ ")"

/-- The candidate loop of `handle_multiple`'s scalar path
(`for (pos, v) in args.iter().enumerate().skip(1)`), with subject text
`a`.  Each candidate must be a text scalar (checked only when the loop
reaches it); a null candidate is skipped; a successful `op` breaks with
`op2` of the result; a failed `op` is remembered in `ret` which the loop
returns.  A reached candidate that is not a text scalar aborts through
the `let .. else` arm with the message built from `{v:?}` (`cv_debug`),
the function name, and the candidate's position. -/
def handle_multiple_scalar_loop {α : Type}
    (op : String → String → Except DFError α) (op2 : α → α)
    (a : String) (name : String) :
    List ColumnarValue → Nat → Option (Except DFError (KernelOut α)) →
    Option (Except DFError (KernelOut α))
  | [], _, ret => ret
  | v :: rest, pos, ret =>
    match v with
    | .scalar _ x =>
      match x with
      | some s =>
        match op a s with
        | .ok r => some (.ok (.scalar (some (op2 r))))
        | .error e => handle_multiple_scalar_loop op op2 a name rest (pos + 1) (some (.error e))
      | none => handle_multiple_scalar_loop op op2 a name rest (pos + 1) ret
    | w =>
      some (.error (.execution ("Unsupported data type " ++ cv_debug w
        ++ " for function " ++ name ++ ", arg # " ++ toString pos)))

/-- `handle_multiple(args, op, op2, name)`: the multi-argument fallback
kernel.  `none` models the panic of `args[0]` on an empty slice.  When
`args[0]` is a text array, every operand's type is validated eagerly and
then `strings_to_primitive_function` runs.  When `args[0]` is a text
scalar, a null subject trips `unwrap_or_internal_err!(a)` and a loop with
no usable candidate trips `unwrap_or_internal_err!(ret)`.  A non-text
scalar at position 0 falls through `try_as_str()` to `None`, whose Debug
rendering is the literal word None in the message. -/
def handle_multiple {α : Type} (args : List ColumnarValue)
    (op : String → String → Except DFError α) (op2 : α → α) (name : String) :
    Option (Except DFError (KernelOut α)) :=
  match args with
  | [] => none
  | arg0 :: rest =>
    match arg0 with
    | .array _ _ =>
      some (match validate_multi name args 0 with
      | .error e => .error e
      | .ok _ =>
        match strings_to_primitive_function args op op2 name with
        | .error e => .error e
        | .ok l => .ok (.array l))
    | .otherArray dt =>
      some (.error (.execution ("Unsupported data type " ++ dt
        ++ " for function " ++ name)))
    | .scalar _ none => some (.error (.internal "a should not be None"))
    | .scalar _ (some a) =>
      match handle_multiple_scalar_loop op op2 a name rest 1 none with
      | none => some (.error (.internal "ret should not be None"))
      | some r => some r
    | .otherScalar _ _ =>
      some (.error (.execution ("Unsupported data type None for function " ++ name)))

/-- chrono's `LocalResult`: localizing a naive local date-time into a
timezone yields zero, one, or two matching instants. -/
inductive LocalResult (α : Type) where
  | notFound
  | single (t : α)
  | ambiguous (t1 t2 : α)
deriving DecidableEq, Repr

/-- Interface of the external chrono library as used by
`string_to_datetime_formatted`, abstracted over the types of `Parsed`
(`P`), the zone-carrying parse result `DateTime<FixedOffset>` (`F`), the
naive date-time (`N`) and the target timezone's `DateTime<T>` (`T`).
`to_naive_date` is composed with the `.into()` promotion of a date to a
midnight date-time, so it already yields an `N`.  Failures carry the
underlying chrono message rendered by `to_string()`. -/
structure ChronoOps (P F N T : Type) where
  parse_strftime : String → String → Except String P
  to_datetime : P → Except String F
  to_naive_datetime_with_offset : P → Except String N
  to_naive_date : P → Except String N
  from_local_datetime : N → LocalResult T
  with_timezone : F → T

/-- The naive reparse of step 2:
`parsed.to_naive_datetime_with_offset(0).or_else(|_| parsed.to_naive_date().map(|nd| nd.into()))`. -/
def naive_reparse {P F N T : Type} (c : ChronoOps P F N T) (parsed : P) :
    Except String N :=
  match c.to_naive_datetime_with_offset parsed with
  | .ok n => .ok n
  | .error _ => c.to_naive_date parsed

/-- The error constructor local to `string_to_datetime_formatted`. -/
def dt_parse_err (s format ctx : String) : DFError :=
  .execution ("Error parsing timestamp from '" ++ s ++ "' using format '"
    ++ format ++ "': " ++ ctx)

/-- `string_to_datetime_formatted(timezone, s, format)`: parse `s` against
the strftime pattern; if the parse result carries a zone, convert it into
the target timezone; otherwise reparse naively (full date-time, else date
at midnight) and localize, succeeding only on a `Single` localization.
In the non-`Single` case the error message carries the step-1
`to_datetime` failure text `e`, exactly as in the source. -/
def string_to_datetime_formatted {P F N T : Type} (c : ChronoOps P F N T)
    (s format : String) : Except DFError T :=
  match c.parse_strftime s format with
  | .error e => .error (dt_parse_err s format e)
  | .ok parsed =>
    match c.to_datetime parsed with
    | .ok dt => .ok (c.with_timezone dt)
    | .error e =>
      match naive_reparse c parsed with
      | .error e2 => .error (dt_parse_err s format e2)
      | .ok ndt =>
        match c.from_local_datetime ndt with
        | .single t => .ok t
        | _ => .error (dt_parse_err s format e)

/-- The constant `ERR_NANOSECONDS_NOT_SUPPORTED`. -/
def ERR_NANOSECONDS_NOT_SUPPORTED : String :=
  "The dates that can be represented as nanoseconds have to be between 1677-09-21T00:12:44.0 and 2262-04-11T23:47:16.854775804"

/-- chrono's `DateTime::timestamp_nanos_opt` on an instant modelled as
integer nanoseconds since the epoch: defined exactly when the count fits
in a signed 64-bit integer (the window ~1677-09-21T00:12:43.145224192Z to
~2262-04-11T23:47:16.854775807Z). -/
def timestamp_nanos_opt (t : Int) : Option Int :=
  if -(2 ^ 63) ≤ t ∧ t ≤ 2 ^ 63 - 1 then some t else none

/-- chrono's `DateTime::timestamp_millis` on an instant modelled as
integer nanoseconds since the epoch: floor division by 10^6, total with
no range restriction. -/
def timestamp_millis (t : Int) : Int :=
  Int.fdiv t 1000000

/-- `string_to_timestamp_nanos_formatted(s, format)`: parse against UTC
(an instant is its nanosecond count, `naive_utc().and_utc()` is the
identity on the instant), then `timestamp_nanos_opt` with the range error
on `None`. -/
def string_to_timestamp_nanos_formatted {P F N : Type}
    (c : ChronoOps P F N Int) (s format : String) : Except DFError Int :=
  match string_to_datetime_formatted c s format with
  | .error e => .error e
  | .ok t =>
    match timestamp_nanos_opt t with
    | some n => .ok n
    | none => .error (.execution ERR_NANOSECONDS_NOT_SUPPORTED)

/-- `string_to_timestamp_millis_formatted(s, format)`: parse against UTC,
then `timestamp_millis`, which always succeeds. -/
def string_to_timestamp_millis_formatted {P F N : Type}
    (c : ChronoOps P F N Int) (s format : String) : Except DFError Int :=
  match string_to_datetime_formatted c s format with
  | .error e => .error e
  | .ok t => .ok (timestamp_millis t)

/-! ### Helper lemmas about the auxiliary fallback loop -/

theorem aux_value_at_eq_none_iff (pos : Nat) (a : ColumnarValue) :
    aux_value_at pos a = none ↔ is_null_scalar a = true := by
  cases a with
  | array enc rows => simp [aux_value_at, is_null_scalar]
  | scalar enc v => cases v <;> simp [aux_value_at, is_null_scalar]
  | otherArray dt => simp [aux_value_at, is_null_scalar]
  | otherScalar dt shown => simp [aux_value_at, is_null_scalar]

/-- Forcing every validity bit of an array auxiliary to true. -/
def force_valid : ColumnarValue → ColumnarValue
  | .array enc rows => .array enc (rows.map (fun r => (r.1, true)))
  | a => a

theorem map_fst_getD (rows : List (String × Bool)) (pos : Nat) :
    ((rows.map (fun r => (r.1, true))).getD pos ("", false)).1
      = (rows.getD pos ("", false)).1 := by
  induction rows generalizing pos with
  | nil => rfl
  | cons hd tl ih =>
    cases pos with
    | zero => rfl
    | succ n => exact ih n

theorem aux_value_at_force_valid (pos : Nat) (a : ColumnarValue) :
    aux_value_at pos (force_valid a) = aux_value_at pos a := by
  cases a with
  | array enc rows =>
    simp only [force_valid, aux_value_at, Option.some.injEq, Except.ok.injEq]
    exact map_fst_getD rows pos
  | scalar enc v => rfl
  | otherArray dt => rfl
  | otherScalar dt shown => rfl

theorem fallback_row_filter_null {α : Type} (op : String → String → Except DFError α)
    (op2 : α → α) (x : String) (pos : Nat) (args : List ColumnarValue) :
    ∀ val, fallback_row op op2 x pos args val
      = fallback_row op op2 x pos (args.filter (fun a => !is_null_scalar a)) val := by
  induction args with
  | nil => intro val; rfl
  | cons a rest ih =>
    intro val
    cases a with
    | scalar enc v =>
      cases v with
      | none => simpa [fallback_row, aux_value_at, is_null_scalar, List.filter_cons] using ih val
      | some s =>
        simp only [fallback_row, aux_value_at, is_null_scalar, List.filter_cons,
          Bool.not_false, if_pos]
        cases op x s with
        | ok r => rfl
        | error e => exact ih _
    | array enc rows =>
      simp only [fallback_row, aux_value_at, is_null_scalar, List.filter_cons,
        Bool.not_false, if_pos]
      cases op x (rows.getD pos ("", false)).1 with
      | ok r => rfl
      | error e => exact ih _
    | otherArray dt => rfl
    | otherScalar dt shown => rfl

theorem fallback_row_force_valid {α : Type} (op : String → String → Except DFError α)
    (op2 : α → α) (x : String) (pos : Nat) (args : List ColumnarValue) :
    ∀ val, fallback_row op op2 x pos (args.map force_valid) val
      = fallback_row op op2 x pos args val := by
  induction args with
  | nil => intro val; rfl
  | cons a rest ih =>
    intro val
    cases a with
    | scalar enc v =>
      cases v with
      | none => simpa [force_valid, fallback_row, aux_value_at] using ih val
      | some s =>
        simp only [List.map_cons, force_valid, fallback_row, aux_value_at]
        cases op x s with
        | ok r => rfl
        | error e => exact ih _
    | array enc rows =>
      simp only [List.map_cons, force_valid, fallback_row, aux_value_at, map_fst_getD]
      cases op x (rows.getD pos ("", false)).1 with
      | ok r => rfl
      | error e => exact ih _
    | otherArray dt => rfl
    | otherScalar dt shown => rfl

theorem handle_array_op_go_congr {α : Type} (op : String → String → Except DFError α)
    (op2 : α → α) (args args2 : List ColumnarValue)
    (h : ∀ pos xo, row_outcome op op2 pos args xo = row_outcome op op2 pos args2 xo) :
    ∀ rows pos, handle_array_op_go op op2 args rows pos
      = handle_array_op_go op op2 args2 rows pos := by
  intro rows
  induction rows with
  | nil => intro pos; rfl
  | cons r rest ih =>
    intro pos
    simp only [handle_array_op_go, h, ih]

/-- Claim C1 counterexample: with primary row `"a"` (non-null) and a single
auxiliary that is an array whose only row is NULL (validity bit false, data
slot `"x"`), the executor does NOT skip the auxiliary: the row parser is
invoked with the null slot's stored data `"x"`.  A parser keyed to `"x"`
succeeds and its transformed result lands in the output (if the auxiliary
had been skipped the output row would be null), and a parser that fails on
`"x"` aborts the call with an error mentioning `"x"`. -/
theorem c1_counterexample :
    handle_array_op [("a", true)] [ColumnarValue.array .utf8 [("x", false)]]
      (fun _ c => if c = "x" then Except.ok (1 : Int) else .error (.execution "fail")) id
      = .ok [some 1]
    ∧ handle_array_op [("a", true)] [ColumnarValue.array .utf8 [("x", false)]]
      (fun _ c => (Except.error (DFError.execution ("saw " ++ c)) : Except DFError Int)) id
      = .error (.execution "saw x") := by
  constructor <;> rfl

/-- Claim C1 (amended): in the row-major fallback executor, an auxiliary
that is a null SCALAR is skipped (deleting all null scalars from the
auxiliary list leaves every result unchanged, so the row parser is never
invoked with one), whereas the nullity of an auxiliary ARRAY's rows is
ignored entirely (forcing all its validity bits to true leaves every
result unchanged: the parser is applied to the data stored at the slot,
null or not). -/
theorem c1_null_aux_handling {α : Type} (op : String → String → Except DFError α)
    (op2 : α → α) (first : List (String × Bool)) (args : List ColumnarValue) :
    handle_array_op first args op op2
      = handle_array_op first (args.filter (fun a => !is_null_scalar a)) op op2
    ∧ handle_array_op first args op op2
      = handle_array_op first (args.map force_valid) op op2 := by
  constructor
  · exact handle_array_op_go_congr op op2 args _
      (fun pos xo => by
        cases xo with
        | none => rfl
        | some x =>
          simp only [row_outcome]
          rw [fallback_row_filter_null]) first 0
  · exact handle_array_op_go_congr op op2 args _
      (fun pos xo => by
        cases xo with
        | none => rfl
        | some x =>
          simp only [row_outcome]
          rw [fallback_row_force_valid]) first 0

theorem fallback_row_first_success {α : Type} (op : String → String → Except DFError α)
    (op2 : α → α) (x : String) (pos : Nat) (aj : ColumnarValue) (v : String) (r : α)
    (hval : aux_value_at pos aj = some (.ok v)) (hsucc : op x v = .ok r) :
    ∀ (pre post : List ColumnarValue) (val : Option (Except DFError α)),
    (∀ a ∈ pre, aux_value_at pos a = none
      ∨ ∃ w e, aux_value_at pos a = some (.ok w) ∧ op x w = .error e) →
    fallback_row op op2 x pos (pre ++ aj :: post) val = some (.ok (op2 r)) := by
  intro pre
  induction pre with
  | nil =>
    intro post val _
    simp only [List.nil_append, fallback_row, hval, hsucc]
  | cons a pre' ih =>
    intro post val hpre
    rcases hpre a (List.mem_cons_self a pre') with h | ⟨w, e, hw, he⟩
    · simp only [List.cons_append, fallback_row, h]
      exact ih post val (fun b hb => hpre b (List.mem_cons_of_mem a hb))
    · simp only [List.cons_append, fallback_row, hw, he]
      exact ih post _ (fun b hb => hpre b (List.mem_cons_of_mem a hb))

/-- Claim C2: for a non-null primary row `x`, the auxiliaries are consulted
in declared left-to-right order.  If every auxiliary before `aj` is either
skipped (null scalar) or yields a candidate on which `op` fails, and `aj`
yields a candidate `v` with `op x v = ok r`, then the row's result is
`op2 r` — `op2` is applied exactly to that accepted result — and the
auxiliaries after `aj` are never consulted: the result is the same for
EVERY continuation `post` of the auxiliary list (first-success-wins). -/
theorem c2_first_success_wins {α : Type} (op : String → String → Except DFError α)
    (op2 : α → α) (x : String) (pos : Nat) (pre post : List ColumnarValue)
    (aj : ColumnarValue) (v : String) (r : α)
    (hpre : ∀ a ∈ pre, aux_value_at pos a = none
      ∨ ∃ w e, aux_value_at pos a = some (.ok w) ∧ op x w = .error e)
    (hval : aux_value_at pos aj = some (.ok v))
    (hsucc : op x v = .ok r) :
    row_outcome op op2 pos (pre ++ aj :: post) (some x) = .ok (some (op2 r))
    ∧ ∀ post2, row_outcome op op2 pos (pre ++ aj :: post2) (some x)
        = .ok (some (op2 r)) := by
  constructor
  · simp only [row_outcome, fallback_row_first_success op op2 x pos aj v r hval hsucc
      pre post none hpre]
  · intro post2
    simp only [row_outcome, fallback_row_first_success op op2 x pos aj v r hval hsucc
      pre post2 none hpre]

theorem fallback_row_skip_all {α : Type} (op : String → String → Except DFError α)
    (op2 : α → α) (x : String) (pos : Nat) :
    ∀ (args : List ColumnarValue), (∀ a ∈ args, is_null_scalar a = true) →
    ∀ val, fallback_row op op2 x pos args val = val := by
  intro args
  induction args with
  | nil => intro _ val; rfl
  | cons a rest ih =>
    intro h val
    have ha : aux_value_at pos a = none :=
      (aux_value_at_eq_none_iff pos a).mpr (h a (List.mem_cons_self a rest))
    simp only [fallback_row, ha]
    exact ih (fun b hb => h b (List.mem_cons_of_mem a hb)) val

theorem fallback_row_all_fail {α : Type} (op : String → String → Except DFError α)
    (op2 : α → α) (x : String) (pos : Nat) :
    ∀ (args : List ColumnarValue) (vs0 : List String) (vlast : String) (elast : DFError)
      (val : Option (Except DFError α)),
    (∀ a ∈ args, ∀ e, aux_value_at pos a ≠ some (Except.error e)) →
    attempted_vals pos args = vs0 ++ [vlast] →
    (∀ w ∈ vs0, ∃ e, op x w = Except.error e) →
    op x vlast = .error elast →
    fallback_row op op2 x pos args val = some (.error elast) := by
  intro args
  induction args with
  | nil =>
    intro vs0 vlast elast val _ hvals _ _
    simp [attempted_vals] at hvals
  | cons a rest ih =>
    intro vs0 vlast elast val hnt hvals hfail hlast
    have hnt' : ∀ b ∈ rest, ∀ e, aux_value_at pos b ≠ some (Except.error e) :=
      fun b hb => hnt b (List.mem_cons_of_mem a hb)
    cases ha : aux_value_at pos a with
    | none =>
      have hv' : attempted_vals pos rest = vs0 ++ [vlast] := by
        simpa [attempted_vals, List.filterMap_cons, ha] using hvals
      simp only [fallback_row, ha]
      exact ih vs0 vlast elast val hnt' hv' hfail hlast
    | some res =>
      cases res with
      | error e => exact absurd ha (hnt a (List.mem_cons_self a rest) e)
      | ok w =>
        have hv' : w :: attempted_vals pos rest = vs0 ++ [vlast] := by
          simpa [attempted_vals, List.filterMap_cons, ha] using hvals
        cases vs0 with
        | nil =>
          simp only [List.nil_append, List.cons.injEq] at hv'
          obtain ⟨rfl, hrest⟩ := hv'
          simp only [fallback_row, ha, hlast]
          have hall : ∀ b ∈ rest, is_null_scalar b = true := by
            intro b hb
            rcases hb2 : aux_value_at pos b with _ | res2
            · exact (aux_value_at_eq_none_iff pos b).mp hb2
            · cases res2 with
              | error e2 => exact absurd hb2 (hnt' b hb e2)
              | ok v2 =>
                exfalso
                have := (List.filterMap_eq_nil_iff.mp hrest) b hb
                rw [hb2] at this
                simp at this
          exact fallback_row_skip_all op op2 x pos rest hall _
        | cons w0 vs0' =>
          simp only [List.cons_append, List.cons.injEq] at hv'
          obtain ⟨rfl, hrest⟩ := hv'
          obtain ⟨e, he⟩ := hfail w (List.mem_cons_self w vs0')
          simp only [fallback_row, ha, he]
          exact ih vs0' vlast elast _ hnt' hrest
            (fun u hu => hfail u (List.mem_cons_of_mem w hu)) hlast

theorem handle_array_op_go_first_error {α : Type} (op : String → String → Except DFError α)
    (op2 : α → α) (args : List ColumnarValue) (rbad : String × Bool) (e : DFError) :
    ∀ (rpre rpost : List (String × Bool)) (pos : Nat),
    (∀ j r, rpre[j]? = some r
      → ∃ o, row_outcome op op2 (pos + j) args (iter_value r) = Except.ok o) →
    row_outcome op op2 (pos + rpre.length) args (iter_value rbad) = .error e →
    handle_array_op_go op op2 args (rpre ++ rbad :: rpost) pos = .error e := by
  intro rpre
  induction rpre with
  | nil =>
    intro rpost pos _ hbad
    simp only [List.length_nil, Nat.add_zero] at hbad
    simp only [List.nil_append, handle_array_op_go, hbad]
  | cons r0 rpre' ih =>
    intro rpost pos hpre hbad
    obtain ⟨o, ho⟩ := hpre 0 r0 (by simp)
    simp only [Nat.add_zero] at ho
    have hrec : handle_array_op_go op op2 args (rpre' ++ rbad :: rpost) (pos + 1)
        = .error e := by
      apply ih rpost (pos + 1)
      · intro j r hj
        have := hpre (j + 1) r (by simpa using hj)
        rwa [show pos + (j + 1) = pos + 1 + j from by omega] at this
      · rwa [show pos + (r0 :: rpre').length = pos + 1 + rpre'.length from by
          simp; omega] at hbad
    simp only [List.cons_append, handle_array_op_go, ho]
    rw [show rpre'.append (rbad :: rpost) = rpre' ++ rbad :: rpost from rfl, hrec]

/-- Claim C3 counterexample: a row whose primary is non-null but whose only
auxiliaries are null scalars has NO usable auxiliary, yet the call does not
fail: the output row is simply null.  The claim's "(or none were usable)"
case therefore does not escalate to the last remembered failure — there is
none to remember — and the call succeeds. -/
theorem c3_counterexample :
    handle_array_op [("s", true)]
      [ColumnarValue.scalar .utf8 none, ColumnarValue.scalar .largeUtf8 none]
      (fun _ _ => (Except.ok (3 : Int) : Except DFError Int)) id
      = .ok [none] := by
  rfl

/-- Claim C3 (amended): for a row whose primary is non-null, whose
auxiliaries produce no type error at that row, and whose attempted
candidate values are `vs0 ++ [vlast]` (non-empty) with `op` failing on all
of `vs0` and failing on `vlast` with `elast`, the whole call aborts with
exactly `elast` — the LAST remembered failure — provided the earlier rows
each had a successful outcome; no partial output column is returned.
If instead NO auxiliary is usable at a row (all are null scalars), the
row's outcome is a null output row, not an error. -/
theorem c3_last_failure_aborts {α : Type} (op : String → String → Except DFError α)
    (op2 : α → α) (x : String) (rpre rpost : List (String × Bool))
    (args : List ColumnarValue) (vs0 : List String) (vlast : String) (elast : DFError)
    (hnotype : ∀ a ∈ args, ∀ e, aux_value_at rpre.length a ≠ some (Except.error e))
    (hvals : attempted_vals rpre.length args = vs0 ++ [vlast])
    (hfail : ∀ w ∈ vs0, ∃ e, op x w = Except.error e)
    (hlast : op x vlast = .error elast)
    (hpre : ∀ j r, rpre[j]? = some r
      → ∃ o, row_outcome op op2 j args (iter_value r) = Except.ok o) :
    handle_array_op (rpre ++ (x, true) :: rpost) args op op2 = .error elast
    ∧ ∀ (pos2 : Nat) (args2 : List ColumnarValue) (y : String),
        (∀ a ∈ args2, is_null_scalar a = true) →
        row_outcome op op2 pos2 args2 (some y) = .ok none := by
  constructor
  · show handle_array_op_go op op2 args (rpre ++ (x, true) :: rpost) 0 = .error elast
    apply handle_array_op_go_first_error
    · intro j r hj
      simpa [Nat.zero_add] using hpre j r hj
    · have : iter_value (x, true) = some x := rfl
      rw [Nat.zero_add, this]
      simp only [row_outcome,
        fallback_row_all_fail op op2 x rpre.length args vs0 vlast elast none
          hnotype hvals hfail hlast]
  · intro pos2 args2 y hall
    simp only [row_outcome, fallback_row_skip_all op op2 y pos2 args2 hall none]

theorem handle_array_op_go_ok_inv {α : Type} (op : String → String → Except DFError α)
    (op2 : α → α) (args : List ColumnarValue) :
    ∀ (rows : List (String × Bool)) (pos : Nat) (res : List (Option α)),
    handle_array_op_go op op2 args rows pos = .ok res →
    res.length = rows.length ∧
    ∀ i (hi : i < rows.length) (hri : i < res.length),
      row_outcome op op2 (pos + i) args (iter_value (rows.get ⟨i, hi⟩))
        = .ok (res.get ⟨i, hri⟩) := by
  intro rows
  induction rows with
  | nil =>
    intro pos res h
    simp only [handle_array_op_go, Except.ok.injEq] at h
    subst h
    exact ⟨rfl, fun i hi => absurd hi (Nat.not_lt_zero i)⟩
  | cons r rest ih =>
    intro pos res h
    simp only [handle_array_op_go] at h
    cases hr : row_outcome op op2 pos args (iter_value r) with
    | error e => rw [hr] at h; cases h
    | ok v =>
      rw [hr] at h
      cases hg : handle_array_op_go op op2 args rest (pos + 1) with
      | error e => rw [hg] at h; cases h
      | ok l =>
        rw [hg] at h
        simp only [Except.ok.injEq] at h
        subst h
        obtain ⟨hlen, hrow⟩ := ih (pos + 1) l hg
        refine ⟨by simp [hlen], ?_⟩
        intro i hi hri
        cases i with
        | zero => simpa using hr
        | succ n =>
          have := hrow n (by simpa using hi) (by simpa using hri)
          simp only [List.get_cons_succ]
          rwa [show pos + (n + 1) = pos + 1 + n from by omega]

theorem fallback_row_eq_none_iff {α : Type} (op : String → String → Except DFError α)
    (op2 : α → α) (x : String) (pos : Nat) :
    ∀ (args : List ColumnarValue) (val : Option (Except DFError α)),
    (fallback_row op op2 x pos args val = none
      ↔ (val = none ∧ ∀ a ∈ args, is_null_scalar a = true)) := by
  intro args
  induction args with
  | nil => intro val; simp [fallback_row]
  | cons a rest ih =>
    intro val
    cases ha : aux_value_at pos a with
    | none =>
      have hnull := (aux_value_at_eq_none_iff pos a).mp ha
      simp only [fallback_row, ha]
      rw [ih val]
      simp [hnull]
    | some res =>
      have hnn : ¬is_null_scalar a = true := by
        rw [← aux_value_at_eq_none_iff pos a]
        simp [ha]
      cases res with
      | error e => simp [fallback_row, ha, hnn]
      | ok v =>
        cases hop : op x v with
        | ok r => simp [fallback_row, ha, hop, hnn]
        | error e =>
          simp only [fallback_row, ha, hop]
          rw [ih (some (.error e))]
          simp [hnn]

/-- Claim C9 counterexample: the output row can be null at a row whose
primary value is NON-null.  Here the primary row `"a"` is valid, the only
auxiliary is a null scalar, and the call succeeds with a null output row —
so a null auxiliary can, on its own, make an output row null, and output
nullity is not equivalent to primary nullity. -/
theorem c9_counterexample :
    handle_array_op [("a", true)] [ColumnarValue.scalar .utf8 none]
      (fun _ _ => (Except.ok (3 : Int) : Except DFError Int)) id
      = .ok [none] := by
  rfl

/-- Claim C9 (amended): for every call of the fallback executor over an
array primary that returns a result column, row `i` of the output is null
iff row `i` of the primary is null OR every auxiliary operand is a null
scalar (in which case no candidate is ever attempted and the row stays
null even though the primary is non-null). -/
theorem c9_output_null_iff {α : Type} (op : String → String → Except DFError α)
    (op2 : α → α) (first : List (String × Bool)) (args : List ColumnarValue)
    (res : List (Option α))
    (h : handle_array_op first args op op2 = Except.ok res) :
    res.length = first.length ∧
    ∀ i (hi : i < first.length) (hri : i < res.length),
      (res.get ⟨i, hri⟩ = none ↔
        ((first.get ⟨i, hi⟩).2 = false ∨ ∀ a ∈ args, is_null_scalar a = true)) := by
  obtain ⟨hlen, hrow⟩ := handle_array_op_go_ok_inv op op2 args first 0 res h
  refine ⟨hlen, ?_⟩
  intro i hi hri
  have hr := hrow i hi hri
  cases hb : (first.get ⟨i, hi⟩).2 with
  | false =>
    have hiv : iter_value (first.get ⟨i, hi⟩) = none := by
      simp only [iter_value]
      rw [hb]
      simp
    rw [hiv] at hr
    simp only [row_outcome, Except.ok.injEq] at hr
    constructor
    · intro _
      exact Or.inl rfl
    · intro _
      exact hr.symm
  | true =>
    have hiv : iter_value (first.get ⟨i, hi⟩) = some (first.get ⟨i, hi⟩).1 := by
      simp only [iter_value]
      rw [hb]
      simp
    rw [hiv] at hr
    constructor
    · intro hnone
      rw [hnone] at hr
      right
      simp only [row_outcome] at hr
      cases hf : fallback_row op op2 (first.get ⟨i, hi⟩).1 (0 + i) args none with
      | none => exact ((fallback_row_eq_none_iff op op2 _ _ args none).mp hf).2
      | some rr =>
        rw [hf] at hr
        cases rr with
        | ok v => simp at hr
        | error e => cases hr
    · intro hd
      rcases hd with hfalse | hall
      · exact absurd hfalse (by decide)
      · have hnone : fallback_row op op2 (first.get ⟨i, hi⟩).1 (0 + i) args none
            = none :=
          (fallback_row_eq_none_iff op op2 _ _ args none).mpr ⟨rfl, hall⟩
        simp only [row_outcome, hnone, Except.ok.injEq] at hr
        exact hr.symm

theorem iter_value_false (s : String) : iter_value (s, false) = none := rfl

theorem iter_value_true (s : String) : iter_value (s, true) = some s := rfl

theorem unary_congr {α : Type} :
    ∀ (rows : List (String × Bool)) (op op' : String → Except DFError α),
    (∀ s, (s, true) ∈ rows → op s = op' s) →
    unary_string_to_primitive_function rows op
      = unary_string_to_primitive_function rows op' := by
  intro rows
  induction rows with
  | nil => intro op op' _; rfl
  | cons r rest ih =>
    intro op op' h
    cases r with
    | mk s b =>
      cases b with
      | false =>
        simp only [unary_string_to_primitive_function, iter_value_false]
        rw [ih op op' (fun t ht => h t (List.mem_cons_of_mem _ ht))]
      | true =>
        simp only [unary_string_to_primitive_function, iter_value_true]
        rw [h s (List.mem_cons_self _ _),
          ih op op' (fun t ht => h t (List.mem_cons_of_mem _ ht))]

theorem unary_ok_inv {α : Type} (op : String → Except DFError α) :
    ∀ (rows : List (String × Bool)) (res : List (Option α)),
    unary_string_to_primitive_function rows op = .ok res →
    res.length = rows.length ∧
    ∀ i (hi : i < rows.length) (hri : i < res.length),
      ((rows.get ⟨i, hi⟩).2 = false → res.get ⟨i, hri⟩ = none)
      ∧ ((rows.get ⟨i, hi⟩).2 = true →
          ∃ v, op (rows.get ⟨i, hi⟩).1 = .ok v ∧ res.get ⟨i, hri⟩ = some v) := by
  intro rows
  induction rows with
  | nil =>
    intro res h
    simp only [unary_string_to_primitive_function, Except.ok.injEq] at h
    subst h
    exact ⟨rfl, fun i hi => absurd hi (Nat.not_lt_zero i)⟩
  | cons r rest ih =>
    intro res h
    cases r with
    | mk s b =>
      cases b with
      | false =>
        simp only [unary_string_to_primitive_function, iter_value_false] at h
        cases hg : unary_string_to_primitive_function rest op with
        | error e => rw [hg] at h; cases h
        | ok l =>
          rw [hg] at h
          simp only [Except.ok.injEq] at h
          subst h
          obtain ⟨hlen, hrow⟩ := ih l hg
          refine ⟨by simp [hlen], ?_⟩
          intro i hi hri
          cases i with
          | zero => exact ⟨fun _ => rfl, fun ht => by simp at ht⟩
          | succ n => exact hrow n (by simpa using hi) (by simpa using hri)
      | true =>
        simp only [unary_string_to_primitive_function, iter_value_true] at h
        cases hop : op s with
        | error e => rw [hop] at h; cases h
        | ok v =>
          rw [hop] at h
          cases hg : unary_string_to_primitive_function rest op with
          | error e => rw [hg] at h; cases h
          | ok l =>
            rw [hg] at h
            simp only [Except.ok.injEq] at h
            subst h
            obtain ⟨hlen, hrow⟩ := ih l hg
            refine ⟨by simp [hlen], ?_⟩
            intro i hi hri
            cases i with
            | zero => exact ⟨fun hf => by simp at hf, fun _ => ⟨v, hop, rfl⟩⟩
            | succ n => exact hrow n (by simpa using hi) (by simpa using hri)

theorem unary_first_error {α : Type} (op : String → Except DFError α)
    (s : String) (e : DFError) (hs : op s = .error e) :
    ∀ (rpre rpost : List (String × Bool)),
    (∀ w ∈ rpre, ∀ x, iter_value w = some x → ∃ v, op x = Except.ok v) →
    unary_string_to_primitive_function (rpre ++ (s, true) :: rpost) op = .error e := by
  intro rpre
  induction rpre with
  | nil =>
    intro rpost _
    simp only [List.nil_append, unary_string_to_primitive_function, iter_value_true, hs]
  | cons w rpre' ih =>
    intro rpost hpre
    cases hw : iter_value w with
    | none =>
      simp only [List.cons_append, unary_string_to_primitive_function, hw]
      rw [show (rpre'.append ((s, true) :: rpost)) = rpre' ++ (s, true) :: rpost from rfl,
        ih rpost (fun u hu => hpre u (List.mem_cons_of_mem _ hu))]
    | some x =>
      obtain ⟨v, hv⟩ := hpre w (List.mem_cons_self _ _) x hw
      simp only [List.cons_append, unary_string_to_primitive_function, hw, hv]
      rw [show (rpre'.append ((s, true) :: rpost)) = rpre' ++ (s, true) :: rpost from rfl,
        ih rpost (fun u hu => hpre u (List.mem_cons_of_mem _ hu))]

/-- Claim C4: in the unary mapping kernel over an array operand, (1) the
result is insensitive to the parser's behaviour outside the non-null rows'
texts, so `op` is never called on a null row; (2) when the call returns a
column, it has one entry per input row, null rows map to null output rows,
and every non-null row's entry is exactly the successful result of `op` on
its text (a failure is never turned into a null row); (3) the FIRST
row-level failure of `op` — all valid rows before it succeeding — aborts
the entire call with exactly that error, so no partial array is produced;
(4) the kernel entry `handle` routes an array operand to this function. -/
theorem c4_unary_kernel (α : Type) :
    (∀ (rows : List (String × Bool)) (op op' : String → Except DFError α),
      (∀ s, (s, true) ∈ rows → op s = op' s) →
      unary_string_to_primitive_function rows op
        = unary_string_to_primitive_function rows op')
    ∧ (∀ (rows : List (String × Bool)) (op : String → Except DFError α)
        (res : List (Option α)),
      unary_string_to_primitive_function rows op = .ok res →
      res.length = rows.length ∧
      ∀ i (hi : i < rows.length) (hri : i < res.length),
        ((rows.get ⟨i, hi⟩).2 = false → res.get ⟨i, hri⟩ = none)
        ∧ ((rows.get ⟨i, hi⟩).2 = true →
            ∃ v, op (rows.get ⟨i, hi⟩).1 = .ok v ∧ res.get ⟨i, hri⟩ = some v))
    ∧ (∀ (rpre : List (String × Bool)) (s : String) (rpost : List (String × Bool))
        (op : String → Except DFError α) (e : DFError),
      (∀ w ∈ rpre, ∀ x, iter_value w = some x → ∃ v, op x = Except.ok v) →
      op s = .error e →
      unary_string_to_primitive_function (rpre ++ (s, true) :: rpost) op = .error e)
    ∧ (∀ (enc : TextEnc) (rows : List (String × Bool)) (rest : List ColumnarValue)
        (op : String → Except DFError α) (name : String),
      handle (.array enc rows :: rest) op name
        = some (match unary_string_to_primitive_function rows op with
                | .error e => .error e
                | .ok l => .ok (.array l))) := by
  refine ⟨unary_congr, fun rows op res h => unary_ok_inv op rows res h,
    fun rpre s rpost op e hpre hs => unary_first_error op s e hs rpre rpost hpre,
    fun enc rows rest op name => rfl⟩

/-- Witness for C4 at the spec's end-to-end example: the array
`["2023-06-01", null, "bad"]` with a parser succeeding on the ISO date and
failing on `"bad"` collapses to a single call error (the third row's), not
a partial 2-good-1-bad array. -/
theorem c4_unary_kernel_witness :
    unary_string_to_primitive_function
      [("2023-06-01", true), ("x", false), ("bad", true)]
      (fun s => if s = "2023-06-01" then Except.ok (5 : Int)
                else .error (.execution "parse fail"))
      = .error (.execution "parse fail") :=
  (c4_unary_kernel Int).2.2.1 [("2023-06-01", true), ("x", false)] "bad" []
    (fun s => if s = "2023-06-01" then Except.ok (5 : Int)
              else .error (.execution "parse fail"))
    (.execution "parse fail")
    (by
      intro w hw x hx
      simp only [List.mem_cons, List.not_mem_nil, or_false] at hw
      rcases hw with rfl | rfl
      · cases hx
        exact ⟨5, rfl⟩
      · cases hx)
    rfl

/-- Claim C5 counterexample: a call with a single operand does NOT raise
the argument-count error when operand 0 is a scalar.  With one non-null
text scalar, the candidate loop runs over an empty list and
`unwrap_or_internal_err!(ret)` turns the unset `ret` into an INTERNAL
error, not the argument-count execution error the claim requires. -/
theorem c5_counterexample :
    handle_multiple [ColumnarValue.scalar .utf8 (some "a")]
      (fun _ _ => (Except.ok (0 : Int) : Except DFError Int)) id "func"
      = some (.error (.internal "ret should not be None")) := by
  rfl

/-- Claim C5 (amended): with fewer than 2 operands the argument-count
error — naming the count received, the function, and the minimum of 2 —
is raised only when operand 0 is a text ARRAY.  A single text-scalar call
instead fails with an internal invariant error ("ret should not be None"
for a non-null subject, "a should not be None" for a null one), and a
zero-operand call panics on the `args[0]` access (modelled as `none`). -/
theorem c5_argument_count {α : Type} (op : String → String → Except DFError α)
    (op2 : α → α) (name : String) (enc : TextEnc) (rows : List (String × Bool))
    (v : String) :
    handle_multiple [ColumnarValue.array enc rows] op op2 name
      = some (.error (.execution ("1 args were supplied but " ++ name
          ++ " takes 2 or more arguments")))
    ∧ handle_multiple [ColumnarValue.scalar enc (some v)] op op2 name
      = some (.error (.internal "ret should not be None"))
    ∧ handle_multiple [ColumnarValue.scalar enc none] op op2 name
      = some (.error (.internal "a should not be None"))
    ∧ handle_multiple ([] : List ColumnarValue) op op2 name = none := by
  refine ⟨?_, rfl, rfl, rfl⟩
  simp only [handle_multiple, validate_multi, strings_to_primitive_function,
    List.length_cons, List.length_nil, Nat.zero_add]
  rw [if_pos (by norm_num)]
  rw [show (toString (1 : Nat) ++ " args were supplied but ")
      = "1 args were supplied but " from by decide]

theorem validate_multi_first_bad (name : String) :
    ∀ (args : List ColumnarValue) (pos j : Nat) (dt : String),
    first_bad args pos = some (j, dt) →
    validate_multi name args pos
      = .error (.execution ("Unsupported data type " ++ dt ++ " for function "
          ++ name ++ ", arg # " ++ toString j)) := by
  intro args
  induction args with
  | nil => intro pos j dt h; cases h
  | cons a rest ih =>
    intro pos j dt h
    cases a with
    | array enc rows => exact ih (pos + 1) j dt h
    | scalar enc v => exact ih (pos + 1) j dt h
    | otherArray dt2 =>
      simp only [first_bad, Option.some.injEq, Prod.mk.injEq] at h
      obtain ⟨rfl, rfl⟩ := h
      rfl
    | otherScalar dt2 shown =>
      simp only [first_bad, Option.some.injEq, Prod.mk.injEq] at h
      obtain ⟨rfl, rfl⟩ := h
      rfl

/-- Claim C6 counterexample: on the scalar-only path, operand types are
NOT all validated before the row parser runs.  Operand 2 here is a
non-text scalar, yet because the parser succeeds on the first candidate
the loop breaks before ever reaching (and type-checking) operand 2, and
the call SUCCEEDS — no UnsupportedType error is raised at all, and the
parser did execute. -/
theorem c6_counterexample :
    handle_multiple [ColumnarValue.scalar .utf8 (some "a"),
      ColumnarValue.scalar .utf8 (some "b"),
      ColumnarValue.otherScalar "Int32" "Int32(7)"]
      (fun _ _ => (Except.ok (1 : Int) : Except DFError Int)) id "tofunc"
      = some (.ok (.scalar (some 1))) := by
  rfl

theorem handle_multiple_scalar_loop_pre {α : Type}
    (op : String → String → Except DFError α) (op2 : α → α) (a name : String) :
    ∀ (pre post : List ColumnarValue) (pos : Nat)
      (ret : Option (Except DFError (KernelOut α))),
    (∀ c ∈ pre, ∃ enc x, c = ColumnarValue.scalar enc x ∧
        (x = none ∨ ∃ s e, x = some s ∧ op a s = Except.error e)) →
    ∃ ret2, handle_multiple_scalar_loop op op2 a name (pre ++ post) pos ret
      = handle_multiple_scalar_loop op op2 a name post (pos + pre.length) ret2 := by
  intro pre
  induction pre with
  | nil => intro post pos ret _; exact ⟨ret, rfl⟩
  | cons c pre' ih =>
    intro post pos ret hpre
    obtain ⟨enc, x, rfl, hx⟩ := hpre c (List.mem_cons_self c pre')
    have hrest := fun b hb => hpre b (List.mem_cons_of_mem _ hb)
    rcases hx with rfl | ⟨s, e, rfl, he⟩
    · obtain ⟨ret2, h2⟩ := ih post (pos + 1) ret hrest
      refine ⟨ret2, ?_⟩
      simp only [List.cons_append, handle_multiple_scalar_loop]
      rw [show pre'.append post = pre' ++ post from rfl, h2,
        show pos + 1 + pre'.length = pos + (pre'.length + 1) from by omega]
      rfl
    · obtain ⟨ret2, h2⟩ := ih post (pos + 1) (some (.error e)) hrest
      refine ⟨ret2, ?_⟩
      simp only [List.cons_append, handle_multiple_scalar_loop, he]
      rw [show pre'.append post = pre' ++ post from rfl, h2,
        show pos + 1 + pre'.length = pos + (pre'.length + 1) from by omega]
      rfl

/-- Claim C6 (amended): when operand 0 is a text ARRAY, every operand at
positions 0..N is type-checked before any row work; the first violation
(position `j`, printed type `dt`) aborts the call with an error carrying
that index, the type and the function name, and the row parser is never
invoked (the result does not depend on `op` at all).  On the scalar-only
path, candidates are type-checked one at a time as the loop reaches them:
after any run of consumed-without-success candidates (null, or failing
`op`), a reached candidate that IS a text scalar and succeeds stops the
loop — the result is independent of every later operand, validated or
not — while a reached candidate that is NOT a text scalar aborts the call
with the type error carrying that candidate's index (`1 + pre.length`),
its Debug rendering and the function name. -/
theorem c6_type_validation (α : Type) :
    (∀ (enc : TextEnc) (rows : List (String × Bool)) (rest : List ColumnarValue)
       (op : String → String → Except DFError α) (op2 : α → α) (name : String)
       (j : Nat) (dt : String),
      first_bad (ColumnarValue.array enc rows :: rest) 0 = some (j, dt) →
      handle_multiple (ColumnarValue.array enc rows :: rest) op op2 name
        = some (.error (.execution ("Unsupported data type " ++ dt
            ++ " for function " ++ name ++ ", arg # " ++ toString j))))
    ∧ (∀ (enc encj : TextEnc) (a sj : String) (pre post : List ColumnarValue)
        (op : String → String → Except DFError α) (op2 : α → α) (name : String)
        (r : α),
      (∀ c ∈ pre, ∃ enc2 x, c = ColumnarValue.scalar enc2 x ∧
          (x = none ∨ ∃ s e, x = some s ∧ op a s = Except.error e)) →
      op a sj = .ok r →
      handle_multiple (ColumnarValue.scalar enc (some a)
          :: (pre ++ ColumnarValue.scalar encj (some sj) :: post)) op op2 name
        = some (.ok (.scalar (some (op2 r)))))
    ∧ (∀ (enc : TextEnc) (a : String) (pre post : List ColumnarValue)
        (vj : ColumnarValue)
        (op : String → String → Except DFError α) (op2 : α → α) (name : String),
      (∀ c ∈ pre, ∃ enc2 x, c = ColumnarValue.scalar enc2 x ∧
          (x = none ∨ ∃ s e, x = some s ∧ op a s = Except.error e)) →
      is_text_scalar vj = false →
      handle_multiple (ColumnarValue.scalar enc (some a) :: (pre ++ vj :: post))
          op op2 name
        = some (.error (.execution ("Unsupported data type " ++ cv_debug vj
            ++ " for function " ++ name ++ ", arg # " ++ toString (1 + pre.length))))) := by
  refine ⟨?_, ?_, ?_⟩
  · intro enc rows rest op op2 name j dt h
    have hv := validate_multi_first_bad name (ColumnarValue.array enc rows :: rest) 0 j dt h
    simp only [handle_multiple, hv]
  · intro enc encj a sj pre post op op2 name r hpre hsucc
    obtain ⟨ret2, h2⟩ := handle_multiple_scalar_loop_pre op op2 a name pre
      (ColumnarValue.scalar encj (some sj) :: post) 1 none hpre
    simp only [handle_multiple, h2, handle_multiple_scalar_loop, hsucc]
  · intro enc a pre post vj op op2 name hpre hvj
    obtain ⟨ret2, h2⟩ := handle_multiple_scalar_loop_pre op op2 a name pre
      (vj :: post) 1 none hpre
    cases vj with
    | scalar enc2 x => simp [is_text_scalar] at hvj
    | array enc2 rows => simp only [handle_multiple, h2, handle_multiple_scalar_loop]
    | otherArray dt => simp only [handle_multiple, h2, handle_multiple_scalar_loop]
    | otherScalar dt shown => simp only [handle_multiple, h2, handle_multiple_scalar_loop]

/-- Witness for C6: concrete instances of all three conjuncts — an eager
array-path type error at index 1 (with a parser that would fail on
everything, showing the result ignores `op`); a scalar-path success at the
SECOND candidate, after a failing first one, that never reaches the
malformed fourth operand; and a scalar-path call whose loop skips a null
first candidate and aborts on the reached non-text second candidate with
its Debug rendering `Scalar(Int32(7))` and index 2. -/
theorem c6_type_validation_witness :
    handle_multiple [ColumnarValue.array .utf8 [("a", true)],
      ColumnarValue.otherScalar "Int32" "Int32(7)",
      ColumnarValue.scalar .utf8 (some "b")]
      (fun _ _ => (Except.error (DFError.execution "boom") : Except DFError Int)) id
      "tofunc"
      = some (.error (.execution "Unsupported data type Int32 for function tofunc, arg # 1"))
    ∧ handle_multiple [ColumnarValue.scalar .utf8 (some "a"),
      ColumnarValue.scalar .utf8 (some "bad1"),
      ColumnarValue.scalar .utf8 (some "c"),
      ColumnarValue.otherArray "Float64"]
      (fun _ c => if c = "c" then Except.ok (2 : Int)
                  else .error (.execution "no")) (fun v => v + 1) "f2"
      = some (.ok (.scalar (some 3)))
    ∧ handle_multiple [ColumnarValue.scalar .utf8 (some "a"),
      ColumnarValue.scalar .utf8 none,
      ColumnarValue.otherScalar "Int32" "Int32(7)",
      ColumnarValue.scalar .utf8 (some "z")]
      (fun _ _ => (Except.error (DFError.execution "no") : Except DFError Int)) id "f3"
      = some (.error (.execution
          "Unsupported data type Scalar(Int32(7)) for function f3, arg # 2")) := by
  refine ⟨?_, ?_, ?_⟩
  · exact (c6_type_validation Int).1 .utf8 [("a", true)]
      [ColumnarValue.otherScalar "Int32" "Int32(7)", ColumnarValue.scalar .utf8 (some "b")]
      (fun _ _ => .error (.execution "boom")) id "tofunc" 1 "Int32" rfl
  · exact (c6_type_validation Int).2.1 .utf8 .utf8 "a" "c"
      [ColumnarValue.scalar .utf8 (some "bad1")] [ColumnarValue.otherArray "Float64"]
      (fun _ c => if c = "c" then Except.ok (2 : Int) else .error (.execution "no"))
      (fun v => v + 1) "f2" 2
      (by
        intro c hc
        simp only [List.mem_cons, List.not_mem_nil, or_false] at hc
        subst hc
        exact ⟨.utf8, some "bad1", rfl,
          Or.inr ⟨"bad1", .execution "no", rfl, rfl⟩⟩)
      rfl
  · exact (c6_type_validation Int).2.2 .utf8 "a"
      [ColumnarValue.scalar .utf8 none] [ColumnarValue.scalar .utf8 (some "z")]
      (ColumnarValue.otherScalar "Int32" "Int32(7)")
      (fun _ _ => .error (.execution "no")) id "f3"
      (by
        intro c hc
        simp only [List.mem_cons, List.not_mem_nil, or_false] at hc
        subst hc
        exact ⟨.utf8, none, rfl, Or.inl rfl⟩)
      rfl

/-- Claim C7: in `string_to_datetime_formatted`, when the zone-carrying
parse of step 1 fails (`to_datetime` errors) and the text reparses as a
naive date-time (or a date promoted to midnight), localizing into the
target timezone succeeds exactly when the localization is UNIQUE
(`Single`); both the zero-instant spring-forward gap (`notFound`) and the
two-instant fall-back overlap (`ambiguous`) return a parse error — never a
default or guessed instant. -/
theorem c7_localization {P F N T : Type} (c : ChronoOps P F N T)
    (s format : String) (parsed : P) (e : String) (ndt : N)
    (hp : c.parse_strftime s format = .ok parsed)
    (hd : c.to_datetime parsed = .error e)
    (hn : naive_reparse c parsed = .ok ndt) :
    (∀ t, c.from_local_datetime ndt = .single t →
      string_to_datetime_formatted c s format = .ok t)
    ∧ (c.from_local_datetime ndt = .notFound →
      string_to_datetime_formatted c s format = .error (dt_parse_err s format e))
    ∧ (∀ t1 t2, c.from_local_datetime ndt = .ambiguous t1 t2 →
      string_to_datetime_formatted c s format = .error (dt_parse_err s format e))
    ∧ ((∃ t, string_to_datetime_formatted c s format = .ok t)
        ↔ ∃ t, c.from_local_datetime ndt = .single t) := by
  refine ⟨?_, ?_, ?_, ?_⟩
  · intro t hl
    simp [string_to_datetime_formatted, hp, hd, hn, hl]
  · intro hl
    simp [string_to_datetime_formatted, hp, hd, hn, hl]
  · intro t1 t2 hl
    simp [string_to_datetime_formatted, hp, hd, hn, hl]
  · cases hl : c.from_local_datetime ndt <;>
      simp [string_to_datetime_formatted, hp, hd, hn, hl]

/-- Concrete chrono behaviour used to witness C7: the strftime parse
succeeds, the zone-carrying interpretation fails, the naive reparse
succeeds, and localization of the naive value is unique. -/
def c7_chrono : ChronoOps Nat Nat Nat Nat where
  parse_strftime := fun _ _ => .ok 0
  to_datetime := fun _ => .error "input is not enough for unique date and time"
  to_naive_datetime_with_offset := fun _ => .ok 5
  to_naive_date := fun _ => .error "date is not fully specified"
  from_local_datetime := fun _ => .single 42
  with_timezone := fun f => f

/-- Witness for C7: on `c7_chrono` the unique localization is returned. -/
theorem c7_localization_witness :
    string_to_datetime_formatted c7_chrono "2024-03-10 02:30:00" "%Y-%m-%d %H:%M:%S"
      = .ok 42 :=
  (c7_localization c7_chrono "2024-03-10 02:30:00" "%Y-%m-%d %H:%M:%S" 0
    "input is not enough for unique date and time" 5 rfl rfl rfl).1 42 rfl

/-- Claim C8: for an instant `t` (nanoseconds since the epoch) produced by
a successful parse, the nanosecond-epoch conversion fails with the range
error exactly when `t` lies outside the signed-64-bit nanosecond window
(−2^63 ≈ 1677-09-21T00:12:43.145224192Z to 2^63−1 ≈
2262-04-11T23:47:16.854775807Z), succeeds with `t` itself inside it, and
the millisecond-epoch conversion of the same instant ALWAYS succeeds, with
no range restriction. -/
theorem c8_nanos_range {P F N : Type} (c : ChronoOps P F N Int)
    (s format : String) (t : Int)
    (h : string_to_datetime_formatted c s format = .ok t) :
    (string_to_timestamp_nanos_formatted c s format
        = .error (.execution ERR_NANOSECONDS_NOT_SUPPORTED)
      ↔ (t < -(2 ^ 63) ∨ 2 ^ 63 - 1 < t))
    ∧ ((-(2 ^ 63) ≤ t ∧ t ≤ 2 ^ 63 - 1) →
      string_to_timestamp_nanos_formatted c s format = .ok t)
    ∧ string_to_timestamp_millis_formatted c s format = .ok (timestamp_millis t) := by
  have hn : string_to_timestamp_nanos_formatted c s format
      = (match timestamp_nanos_opt t with
         | some n => .ok n
         | none => .error (.execution ERR_NANOSECONDS_NOT_SUPPORTED)) := by
    simp only [string_to_timestamp_nanos_formatted, h]
  by_cases hin : -(2 ^ 63) ≤ t ∧ t ≤ 2 ^ 63 - 1
  · have hv : timestamp_nanos_opt t = some t := by
      unfold timestamp_nanos_opt
      rw [if_pos hin]
    refine ⟨?_, ?_, ?_⟩
    · rw [hn, hv]
      constructor
      · intro hc
        cases hc
      · intro hc
        exfalso
        omega
    · intro _
      rw [hn, hv]
    · simp [string_to_timestamp_millis_formatted, h]
  · have hv : timestamp_nanos_opt t = none := by
      unfold timestamp_nanos_opt
      rw [if_neg hin]
    refine ⟨?_, ?_, ?_⟩
    · rw [hn, hv]
      constructor
      · intro _
        omega
      · intro _
        rfl
    · intro hc
      exact absurd hc hin
    · simp [string_to_timestamp_millis_formatted, h]

/-- Concrete chrono behaviour used to witness C8: the zone-carrying parse
succeeds directly with an instant of 2^63 nanoseconds, one past the
representable window. -/
def c8_chrono : ChronoOps Nat Int Nat Int where
  parse_strftime := fun _ _ => .ok 0
  to_datetime := fun _ => .ok (2 ^ 63)
  to_naive_datetime_with_offset := fun _ => .error "unreachable"
  to_naive_date := fun _ => .error "unreachable"
  from_local_datetime := fun _ => .notFound
  with_timezone := fun f => f

/-- Witness for C8: at 2^63 ns the nanosecond conversion raises the range
error while the millisecond conversion of the same instant succeeds. -/
theorem c8_nanos_range_witness :
    string_to_timestamp_nanos_formatted c8_chrono "2262-04-11 23:47:16.854775808" "%s"
      = .error (.execution ERR_NANOSECONDS_NOT_SUPPORTED)
    ∧ string_to_timestamp_millis_formatted c8_chrono "2262-04-11 23:47:16.854775808" "%s"
      = .ok (timestamp_millis (2 ^ 63)) := by
  have h := c8_nanos_range c8_chrono "2262-04-11 23:47:16.854775808" "%s" (2 ^ 63) rfl
  exact ⟨h.1.mpr (by norm_num), h.2.2⟩

/-- Claim C10: both kernels are deterministic — the embedding is a pure
function of its operands, so two invocations with identical operands and
extensionally equal row parsers (and post-transforms) produce identical
results: same values, same null positions, same error if any. -/
theorem c10_deterministic (α : Type) :
    (∀ (args : List ColumnarValue) (op op' : String → Except DFError α)
       (name : String),
      (∀ s, op s = op' s) → handle args op name = handle args op' name)
    ∧ (∀ (args : List ColumnarValue) (op op' : String → String → Except DFError α)
        (op2 op2' : α → α) (name : String),
      (∀ s t, op s t = op' s t) → (∀ v, op2 v = op2' v) →
      handle_multiple args op op2 name = handle_multiple args op' op2' name) := by
  constructor
  · intro args op op' name h
    rw [funext h]
  · intro args op op' op2 op2' name h h2
    rw [funext (fun s => funext (fun t => h s t)), funext h2]

/-- Witness for C10: the unary kernel applied twice to the same operands
and parser, via the determinism theorem at a concrete input. -/
theorem c10_deterministic_witness :
    handle [ColumnarValue.array .utf8 [("a", true), ("b", false)]]
      (fun _ => Except.ok (7 : Int)) "to_timestamp"
      = handle [ColumnarValue.array .utf8 [("a", true), ("b", false)]]
        (fun _ => Except.ok (7 : Int)) "to_timestamp" :=
  (c10_deterministic Int).1 [ColumnarValue.array .utf8 [("a", true), ("b", false)]]
    (fun _ => Except.ok (7 : Int)) (fun _ => Except.ok (7 : Int)) "to_timestamp"
    (fun _ => rfl)

/-- Witness for C2, mirroring the spec's example: primary `"2023-01-01"`,
candidates `"pat1"` (fails), a null candidate (skipped), `"pat2"`
(succeeds with 9), and a malformed fourth operand that would raise a type
error if consulted — the row yields the transformed second result 10 and
the fourth operand is never offered. -/
theorem c2_first_success_wins_witness :
    row_outcome
      (fun _ c => if c = "pat2" then Except.ok (9 : Int)
                  else .error (.execution "no"))
      (fun v => v + 1) 0
      [ColumnarValue.scalar .utf8 (some "pat1"), ColumnarValue.scalar .utf8 none,
       ColumnarValue.scalar .utf8 (some "pat2"), ColumnarValue.otherArray "Int32"]
      (some "2023-01-01") = .ok (some 10) :=
  (c2_first_success_wins
    (fun _ c => if c = "pat2" then Except.ok (9 : Int) else .error (.execution "no"))
    (fun v => v + 1) "2023-01-01" 0
    [ColumnarValue.scalar .utf8 (some "pat1"), ColumnarValue.scalar .utf8 none]
    [ColumnarValue.otherArray "Int32"]
    (ColumnarValue.scalar .utf8 (some "pat2")) "pat2" 9
    (by
      intro a ha
      simp only [List.mem_cons, List.not_mem_nil, or_false] at ha
      rcases ha with rfl | rfl
      · exact Or.inr ⟨"pat1", .execution "no", rfl, rfl⟩
      · exact Or.inl rfl)
    rfl rfl).1

/-- Witness for C3: row 0 (`"good"`) succeeds on the first candidate;
row 1 (`"badrow"`) attempts `"f1"` (fails with `Ef1`) then the array
candidate `"f2"` (fails with `Ef2`), and the whole call aborts with the
LAST failure `Ef2`, not the first. -/
theorem c3_last_failure_aborts_witness :
    handle_array_op [("good", true), ("badrow", true)]
      [ColumnarValue.scalar .utf8 (some "f1"),
       ColumnarValue.array .utf8 [("g0", true), ("f2", true)]]
      (fun p c => if p = "badrow" then Except.error (DFError.execution ("E" ++ c))
                  else Except.ok (7 : Int)) id
      = .error (.execution "Ef2") :=
  (c3_last_failure_aborts
    (fun p c => if p = "badrow" then Except.error (DFError.execution ("E" ++ c))
                else Except.ok (7 : Int)) id
    "badrow" [("good", true)] []
    [ColumnarValue.scalar .utf8 (some "f1"),
     ColumnarValue.array .utf8 [("g0", true), ("f2", true)]]
    ["f1"] "f2" (.execution "Ef2")
    (by
      intro a ha e hc
      simp only [List.mem_cons, List.not_mem_nil, or_false] at ha
      rcases ha with rfl | rfl
      · have hv : aux_value_at [("good", true)].length
            (ColumnarValue.scalar .utf8 (some "f1")) = some (.ok "f1") := rfl
        rw [hv] at hc
        simp at hc
      · have hv : aux_value_at [("good", true)].length
            (ColumnarValue.array .utf8 [("g0", true), ("f2", true)])
            = some (.ok "f2") := rfl
        rw [hv] at hc
        simp at hc)
    rfl
    (by
      intro w hw
      simp only [List.mem_cons, List.not_mem_nil, or_false] at hw
      subst hw
      exact ⟨.execution "Ef1", rfl⟩)
    rfl
    (by
      intro j r hj
      cases j with
      | zero =>
        simp only [List.getElem?_cons_zero, Option.some.injEq] at hj
        subst hj
        exact ⟨some 7, rfl⟩
      | succ n => simp at hj)).1

/-- Witness for C9: a two-row call (second primary row null) with one
non-null scalar auxiliary returns `[some 3, none]`; the instantiated
equivalence at row 1 says its output is null exactly because the primary
row is null (the auxiliary is not a null scalar). -/
theorem c9_output_null_iff_witness :
    ([some 3, (none : Option Int)].get ⟨1, by decide⟩ = none ↔
      (([("a", true), ("b", false)].get ⟨1, by decide⟩).2 = false ∨
       ∀ a ∈ [ColumnarValue.scalar .utf8 (some "f")], is_null_scalar a = true)) :=
  (c9_output_null_iff (fun _ _ => (Except.ok (3 : Int) : Except DFError Int)) id
    [("a", true), ("b", false)] [ColumnarValue.scalar .utf8 (some "f")]
    [some 3, none] rfl).2 1 (by decide) (by decide)

/-- Witness for C1's amended statement at a concrete input: deleting the
null scalar auxiliary leaves the call's result unchanged. -/
theorem c1_null_aux_handling_witness :
    handle_array_op [("a", true)]
      [ColumnarValue.scalar .utf8 none, ColumnarValue.array .utf8 [("x", false)]]
      (fun _ _ => (Except.ok (1 : Int) : Except DFError Int)) id
    = handle_array_op [("a", true)] [ColumnarValue.array .utf8 [("x", false)]]
      (fun _ _ => (Except.ok (1 : Int) : Except DFError Int)) id :=
  (c1_null_aux_handling (fun _ _ => (Except.ok (1 : Int) : Except DFError Int)) id
    [("a", true)]
    [ColumnarValue.scalar .utf8 none, ColumnarValue.array .utf8 [("x", false)]]).1

/-- Witness for C5's amended statement at a concrete input: a one-operand
text-array call raises the argument-count error. -/
theorem c5_argument_count_witness :
    handle_multiple [ColumnarValue.array .utf8 [("a", true)]]
      (fun _ _ => (Except.ok (0 : Int) : Except DFError Int)) id "to_timestamp"
      = some (.error (.execution
          "1 args were supplied but to_timestamp takes 2 or more arguments")) :=
  (c5_argument_count (fun _ _ => (Except.ok (0 : Int) : Except DFError Int)) id
    "to_timestamp" .utf8 [("a", true)] "z").1

end DFDatetime
